import Mathlib

/-!
Verification of the OpenRouter SSE stream-event normalizer
(`agentle/responses/open_router/open_router_responder.py`).

The development shallowly embeds `OpenRouterResponder._stream_events` and
`OpenRouterResponder._normalize_event_type`.  Python strings are sequences of
code points; the string operations used by the source (`str.strip`,
`str.startswith`, slicing `s[6:]`) are therefore modelled on the code-point
list `String.data`.  JSON values produced by `json.loads` are modelled by
the `JsonVal` type (numbers as `Int`; no claim in scope depends on float
semantics), and a Python `dict` by an association list with first-match
lookup and replace-first-or-append assignment, which coincides with `dict`
semantics because `json.loads` never produces duplicate keys.

External collaborators (the `json` module's parser and the Pydantic
validators for models whose definitions are outside the embedded sources)
are parameters of the model, collected in `Decoders`.
-/

/-- JSON values as produced by Python's `json.loads`: `None`, `bool`, numbers
(modelled as `Int`), `str`, `list`, `dict`. -/
inductive JsonVal : Type where
  | null : JsonVal
  | bool (b : Bool) : JsonVal
  | num (n : Int) : JsonVal
  | str (s : String) : JsonVal
  | arr (elems : List JsonVal) : JsonVal
  | obj (fields : List (String × JsonVal)) : JsonVal

/-- Python `dict[str, Any]` for decoded JSON objects, as an association list
(no duplicate keys arise from `json.loads`). -/
abbrev JsonObj := List (String × JsonVal)

/-- Python `d.get(k)`: value of the first matching key, if any. -/
def dictGet? (d : JsonObj) (k : String) : Option JsonVal :=
  match d with
  | [] => none
  | (k', v) :: rest => if k' = k then some v else dictGet? rest k

/-- Python `d[k] = v`: replace the value at `k` if present, else append the
new key (insertion order at the end, as in CPython). -/
def dictSet (d : JsonObj) (k : String) (v : JsonVal) : JsonObj :=
  match d with
  | [] => [(k, v)]
  | (k', v') :: rest => if k' = k then (k', v) :: rest else (k', v') :: dictSet rest k v

/-- Python values that `dict.get` accepts as a key; `list` and `dict` are
unhashable and make `dict.get` raise `TypeError`. -/
def JsonVal.hashable : JsonVal → Bool
  | .arr _ => false
  | .obj _ => false
  | _ => true

/-- Python `s.strip()` on the code points of a string. -/
def pyStrip (s : String) : String :=
  ⟨((s.data.dropWhile Char.isWhitespace).reverse.dropWhile Char.isWhitespace).reverse⟩

/-- Python `s.startswith(p)` on the code points of a string. -/
def pyStartsWith (s p : String) : Bool :=
  p.data.isPrefixOf s.data

/-- Python `s[n:]` on the code points of a string. -/
def pyDrop (s : String) (n : Nat) : String :=
  ⟨s.data.drop n⟩

/-- Concatenation of a list of strings, for stating the accumulator
invariant. -/
def strConcat : List String → String
  | [] => ""
  | s :: rest => s ++ strConcat rest

/-- The vendor-to-framework event-type table of
`OpenRouterResponder._normalize_event_type` (`type_mapping` in the source),
reproduced entry for entry. -/
def typeMapping : List (String × String) :=
  [ ("response.created", "ResponseCreatedEvent"),
    ("response.in_progress", "ResponseInProgressEvent"),
    ("response.completed", "ResponseCompletedEvent"),
    ("response.failed", "ResponseFailedEvent"),
    ("response.incomplete", "ResponseIncompleteEvent"),
    ("response.queued", "ResponseQueuedEvent"),
    ("response.error", "ResponseErrorEvent"),
    ("response.output_item.added", "ResponseOutputItemAddedEvent"),
    ("response.output_item.done", "ResponseOutputItemDoneEvent"),
    ("response.content_part.added", "ResponseContentPartAddedEvent"),
    ("response.content_part.done", "ResponseContentPartDoneEvent"),
    ("response.output_text.delta", "ResponseTextDeltaEvent"),
    ("response.output_text.done", "ResponseTextDoneEvent"),
    ("response.output_text.annotation.added", "ResponseOutputTextAnnotationAddedEvent"),
    ("response.reasoning.delta", "ResponseReasoningTextDeltaEvent"),
    ("response.reasoning.done", "ResponseReasoningTextDoneEvent"),
    ("response.reasoning_summary_part.added", "ResponseReasoningSummaryPartAddedEvent"),
    ("response.reasoning_summary_part.done", "ResponseReasoningSummaryPartDoneEvent"),
    ("response.reasoning_summary_text.delta", "ResponseReasoningSummaryTextDeltaEvent"),
    ("response.reasoning_summary_text.done", "ResponseReasoningSummaryTextDoneEvent"),
    ("response.refusal.delta", "ResponseRefusalDeltaEvent"),
    ("response.refusal.done", "ResponseRefusalDoneEvent"),
    ("response.function_call_arguments.delta", "ResponseFunctionCallArgumentsDeltaEvent"),
    ("response.function_call_arguments.done", "ResponseFunctionCallArgumentsDoneEvent"),
    ("response.audio.delta", "ResponseAudioDeltaEvent"),
    ("response.audio.done", "ResponseAudioDoneEvent"),
    ("response.audio_transcript.delta", "ResponseAudioTranscriptDeltaEvent"),
    ("response.audio_transcript.done", "ResponseAudioTranscriptDoneEvent"),
    ("response.web_search_call.in_progress", "ResponseWebSearchCallInProgressEvent"),
    ("response.web_search_call.searching", "ResponseWebSearchCallSearchingEvent"),
    ("response.web_search_call.completed", "ResponseWebSearchCallCompletedEvent"),
    ("response.file_search_call.in_progress", "ResponseFileSearchCallInProgressEvent"),
    ("response.file_search_call.searching", "ResponseFileSearchCallSearchingEvent"),
    ("response.file_search_call.completed", "ResponseFileSearchCallCompletedEvent"),
    ("response.code_interpreter_call.in_progress", "ResponseCodeInterpreterCallInProgressEvent"),
    ("response.code_interpreter_call.interpreting", "ResponseCodeInterpreterCallInterpretingEvent"),
    ("response.code_interpreter_call.completed", "ResponseCodeInterpreterCallCompletedEvent"),
    ("response.code_interpreter_call.code.delta", "ResponseCodeInterpreterCallCodeDeltaEvent"),
    ("response.code_interpreter_call.code.done", "ResponseCodeInterpreterCallCodeDoneEvent"),
    ("response.image_gen_call.in_progress", "ResponseImageGenCallInProgressEvent"),
    ("response.image_gen_call.generating", "ResponseImageGenCallGeneratingEvent"),
    ("response.image_gen_call.completed", "ResponseImageGenCallCompletedEvent"),
    ("response.image_gen_call.partial_image", "ResponseImageGenCallPartialImageEvent"),
    ("response.mcp_call.in_progress", "ResponseMCPCallInProgressEvent"),
    ("response.mcp_call.arguments.delta", "ResponseMCPCallArgumentsDeltaEvent"),
    ("response.mcp_call.arguments.done", "ResponseMCPCallArgumentsDoneEvent"),
    ("response.mcp_call.completed", "ResponseMCPCallCompletedEvent"),
    ("response.mcp_call.failed", "ResponseMCPCallFailedEvent"),
    ("response.mcp_list_tools.in_progress", "ResponseMCPListToolsInProgressEvent"),
    ("response.mcp_list_tools.completed", "ResponseMCPListToolsCompletedEvent"),
    ("response.mcp_list_tools.failed", "ResponseMCPListToolsFailedEvent"),
    ("response.custom_tool_call.input.delta", "ResponseCustomToolCallInputDeltaEvent"),
    ("response.custom_tool_call.input.done", "ResponseCustomToolCallInputDoneEvent") ]

/-- Shallow embedding of `OpenRouterResponder._normalize_event_type`:
`event_type = event_data.get("type", "")`, then
`event_data["type"] = type_mapping.get(event_type, event_type)`.
When the `type` value is an unhashable `list` or `dict`, `dict.get` raises
`TypeError`; that exit is modelled by `none`.  Non-string hashable values
miss every (string) key of the table and are written back unchanged. -/
def normalizeEventType (event_data : JsonObj) : Option JsonObj :=
  match (dictGet? event_data "type").getD (JsonVal.str "") with
  | .arr _ => none
  | .obj _ => none
  | .str s => some (dictSet event_data "type" (JsonVal.str ((typeMapping.lookup s).getD s)))
  | v => some (dictSet event_data "type" v)

/-- Modelled from the spec: the `output_text` content part of the `Response`
Pydantic model (`agentle/responses/definitions/response.py` is not under the
embedded sources).  Spec 4.4: the parsed object is attached "to the nested
output-text content field(s) inside the completed event's embedded response
object"; the in-source non-streaming handler confirms the shape
(`content.type == "output_text"`, `content.text`, `content.parsed`). -/
structure OutputContent (P : Type) where
  type : String
  text : Option String
  parsed : Option P

/-- Modelled from the spec: an output item of the embedded response object
(`output_item.type == "message"` guards the attachment loop). -/
structure OutputItem (P : Type) where
  type : String
  content : List (OutputContent P)

/-- Modelled from the spec: the embedded response object of a terminal
event, reduced to the `output` field that the attachment step walks. -/
structure ResponseObj (P : Type) where
  output : List (OutputItem P)

/-- Modelled from the spec: the decoded `ResponseStreamType` discriminated
union (`agentle/responses/definitions/` is not under the embedded sources).
Spec 3: a tagged union of ~50 variants, each carrying a `type` tag plus
variant-specific payload fields (e.g. `delta: str`).  Only the two variants
the stream loop inspects are kept structurally; all others carry their tag. -/
inductive StreamEvent (P : Type) where
  | completed (response : ResponseObj P) : StreamEvent P
  | textDelta (delta : String) : StreamEvent P
  | other (tag : String) : StreamEvent P

/-- Discriminator tag of a decoded event (`event.type`); the Pydantic
classes fix it as a `Literal`, so it is determined by the variant. -/
def StreamEvent.type {P : Type} : StreamEvent P → String
  | .completed _ => "ResponseCompletedEvent"
  | .textDelta _ => "ResponseTextDeltaEvent"
  | .other tag => tag

/-- External collaborators of the stream loop: the `json` module's parser
(`json.loads`, `none` = `JSONDecodeError`) and the Pydantic validators for
the nested `Response` model and for the payload fields of the remaining
event classes (`none`/`false` = `ValidationError`). -/
structure Decoders (P : Type) where
  parseJson : String → Option JsonVal
  validateResponse : JsonVal → Option (ResponseObj P)
  validateFields : String → JsonObj → Bool

/-- Tag names accepted by the discriminated union.  Spec 4.2: the table
"must be kept in exact 1:1 sync with the decoder's variant tags". -/
def responseStreamTags : List String := typeMapping.map Prod.snd

/-- Modelled from the spec: `_response_stream_adapter.validate_python`
(`TypeAdapter(ResponseStreamType)`, whose definition is not under the
embedded sources).  Spec 4.3: "validates/decodes it into the tagged-union
`StreamEvent` type using the `type` field as discriminator"; a missing or
unknown tag is a validation failure.  The `ResponseTextDeltaEvent` variant
requires a string `delta` field (spec 3); the `ResponseCompletedEvent`
variant embeds a validated `Response` object. -/
def validateEvent {P : Type} (D : Decoders P) (d : JsonObj) : Option (StreamEvent P) :=
  match dictGet? d "type" with
  | some (.str t) =>
    if t = "ResponseCompletedEvent" then
      match dictGet? d "response" with
      | some rj => (D.validateResponse rj).map StreamEvent.completed
      | none => none
    else if t = "ResponseTextDeltaEvent" then
      match dictGet? d "delta" with
      | some (.str s) => if D.validateFields t d then some (StreamEvent.textDelta s) else none
      | _ => none
    else if responseStreamTags.contains t then
      if D.validateFields t d then some (StreamEvent.other t) else none
    else none
  | _ => none

/-- The in-place attachment loop of `_stream_events` (lines 236-245): for
every output item with `type == "message"`, every content part with
`type == "output_text"` receives `content.parsed = p`. -/
def injectParsed {P : Type} (p : P) (r : ResponseObj P) : ResponseObj P :=
  { output := r.output.map fun item =>
      if item.type = "message" then
        { item with content := item.content.map fun c =>
            if c.type = "output_text" then { c with parsed := some p } else c }
      else item }

/-- The `try` block of `_stream_events` lines 233-247: parse the
accumulated text as JSON, validate it against the caller-supplied schema
(`text_format.model_validate`), and attach the result; any failure is
swallowed (`except Exception: pass`) and leaves the response unchanged.
`model_validate` is deterministic, so a validation failure raises at the
first content part, before any `parsed` assignment. -/
def attachStructuredOutput {P : Type} (D : Decoders P) (schemaValidate : JsonVal → Option P)
    (accumulated_text : String) (r : ResponseObj P) : ResponseObj P :=
  match D.parseJson accumulated_text with
  | none => r
  | some parsed_data =>
    match schemaValidate parsed_data with
    | none => r
    | some p => injectParsed p r

/-- State of one pass of the `_stream_events` loop: the delta accumulator,
the events yielded so far, the number of terminal-parse attempts
(`json.loads(accumulated_text)` calls, instrumentation for the at-most-once
claim) and whether `data: [DONE]` broke the loop. -/
structure StreamState (P : Type) where
  accumulated_text : String
  events : List (StreamEvent P)
  parseAttempts : Nat
  done : Bool

/-- Loop state at entry of `_stream_events` (`accumulated_text = ""`). -/
def startState (P : Type) : StreamState P :=
  { accumulated_text := "", events := [], parseAttempts := 0, done := false }

/-- Python `x == "lit"` where `x` is an arbitrary decoded value: true only
when `x` is that string. -/
def isTypeStr (v : Option JsonVal) (t : String) : Bool :=
  match v with
  | some (.str s) => s = t
  | _ => false

/-- Lines 225-249 of `_stream_events`: the terminal structured-output hook
and the `yield`.  The guard is
`event_type == "response.completed" and text_format and accumulated_text
and isinstance(event, ResponseCompletedEvent)` (with
`issubclass(text_format, BaseModel)` inside; supplied schemas are modelled
as `BaseModel` subclasses, `text_format = some f`). -/
def yieldEvent {P : Type} (D : Decoders P) (text_format : Option (JsonVal → Option P))
    (st : StreamState P) (event_type : Option JsonVal) (ev : StreamEvent P) : StreamState P :=
  match ev, text_format with
  | .completed r, some f =>
    if isTypeStr event_type "response.completed" then
      if st.accumulated_text = "" then
        { st with events := st.events ++ [StreamEvent.completed r] }
      else
        { st with
            events := st.events ++
              [StreamEvent.completed (attachStructuredOutput D f st.accumulated_text r)],
            parseAttempts := st.parseAttempts + 1 }
    else { st with events := st.events ++ [StreamEvent.completed r] }
  | _, _ => { st with events := st.events ++ [ev] }

/-- The `try` body of `_stream_events` for one `data:` record (lines
207-257): `json.loads`, capture of the raw `event_type`, type
normalization, discriminated-union validation, delta accumulation
(`accumulated_text += event_data.get("delta", "")`, whose `str + non-str`
`TypeError` is caught and skips the record), then the completed-event hook
and the `yield`.  Every caught exception leaves the state unchanged and
continues with the next line. -/
def processDataStr {P : Type} (D : Decoders P) (text_format : Option (JsonVal → Option P))
    (st : StreamState P) (data_str : String) : StreamState P :=
  match D.parseJson data_str with
  | none => st
  | some (.obj event_data) =>
    match normalizeEventType event_data with
    | none => st
    | some d' =>
      match validateEvent D d' with
      | none => st
      | some ev =>
        if isTypeStr (dictGet? event_data "type") "response.output_text.delta" then
          match (dictGet? d' "delta").getD (JsonVal.str "") with
          | .str s =>
            yieldEvent D text_format
              { st with accumulated_text := st.accumulated_text ++ s }
              (dictGet? event_data "type") ev
          | _ => st
        else
          yieldEvent D text_format st (dictGet? event_data "type") ev
  | some _ => st

/-- One iteration of `async for line in response.content` (lines 191-205):
strip, skip blanks, skip `event: ` lines, handle `data: ` lines (`[DONE]`
breaks the loop, modelled by the `done` flag), ignore anything else. -/
def processLine {P : Type} (D : Decoders P) (text_format : Option (JsonVal → Option P))
    (st : StreamState P) (line : String) : StreamState P :=
  if st.done then st
  else
    if pyStrip line = "" then st
    else if pyStartsWith (pyStrip line) "event: " then st
    else if pyStartsWith (pyStrip line) "data: " then
      if pyDrop (pyStrip line) 6 = "[DONE]" then { st with done := true }
      else processDataStr D text_format st (pyDrop (pyStrip line) 6)
    else st

/-- Shallow embedding of `OpenRouterResponder._stream_events` over a finite
transport line sequence: fold the per-line step from the start state. -/
def streamEvents {P : Type} (D : Decoders P) (text_format : Option (JsonVal → Option P))
    (lines : List String) : StreamState P :=
  lines.foldl (processLine D text_format) (startState P)

/-- Whether a transport line is the `data: [DONE]` terminator, following
exactly the branch order of `processLine`. -/
def isDoneLine (line : String) : Bool :=
  if pyStrip line = "" then false
  else if pyStartsWith (pyStrip line) "event: " then false
  else if pyStartsWith (pyStrip line) "data: " then
    decide (pyDrop (pyStrip line) 6 = "[DONE]")
  else false

/-- Normalized type name of the event a `data:` payload contributes, or
`none` for a payload that is skipped (unparseable JSON, non-dict JSON,
`TypeError` in normalization, or failed validation). -/
def dataEventType? {P : Type} (D : Decoders P) (data_str : String) : Option String :=
  match D.parseJson data_str with
  | some (.obj event_data) =>
    match normalizeEventType event_data with
    | some d' => (validateEvent D d').map StreamEvent.type
    | none => none
  | _ => none

/-- Delta contribution of a `data:` payload to the accumulator: the `delta`
string of a payload that decodes successfully and whose original
(pre-normalization) type string is `response.output_text.delta`. -/
def dataDelta? {P : Type} (D : Decoders P) (data_str : String) : Option String :=
  match D.parseJson data_str with
  | some (.obj event_data) =>
    match normalizeEventType event_data with
    | some d' =>
      match validateEvent D d' with
      | some _ =>
        if isTypeStr (dictGet? event_data "type") "response.output_text.delta" then
          match (dictGet? d' "delta").getD (JsonVal.str "") with
          | .str s => some s
          | _ => none
        else none
      | none => none
    | none => none
  | _ => none

/-- Whether a `data:` payload decodes to a `ResponseCompletedEvent` with
original type `response.completed` while a schema was supplied: exactly
the payloads on which the terminal-parse guard of `_stream_events` can
fire. -/
def dataCompleted {P : Type} (D : Decoders P) (text_format : Option (JsonVal → Option P))
    (data_str : String) : Bool :=
  match D.parseJson data_str with
  | some (.obj event_data) =>
    match normalizeEventType event_data with
    | some d' =>
      match validateEvent D d' with
      | some (.completed _) =>
        isTypeStr (dictGet? event_data "type") "response.completed"
          && text_format.isSome
      | _ => false
    | none => false
  | _ => false

/-- Normalized type name of the event a line contributes to the output
sequence, or `none` for a line that is skipped. -/
def lineEventType? {P : Type} (D : Decoders P) (line : String) : Option String :=
  if pyStrip line = "" then none
  else if pyStartsWith (pyStrip line) "event: " then none
  else if pyStartsWith (pyStrip line) "data: " then
    if pyDrop (pyStrip line) 6 = "[DONE]" then none
    else dataEventType? D (pyDrop (pyStrip line) 6)
  else none

/-- Delta contribution of a line to the accumulator. -/
def lineDelta? {P : Type} (D : Decoders P) (line : String) : Option String :=
  if pyStrip line = "" then none
  else if pyStartsWith (pyStrip line) "event: " then none
  else if pyStartsWith (pyStrip line) "data: " then
    if pyDrop (pyStrip line) 6 = "[DONE]" then none
    else dataDelta? D (pyDrop (pyStrip line) 6)
  else none

/-- Whether a line can fire the terminal-parse guard. -/
def lineCompleted {P : Type} (D : Decoders P) (text_format : Option (JsonVal → Option P))
    (line : String) : Bool :=
  if pyStrip line = "" then false
  else if pyStartsWith (pyStrip line) "event: " then false
  else if pyStartsWith (pyStrip line) "data: " then
    if pyDrop (pyStrip line) 6 = "[DONE]" then false
    else dataCompleted D text_format (pyDrop (pyStrip line) 6)
  else false

/-- Demonstration stand-in for `json.loads` used by the concrete witnesses:
a finite partial parse function (payload spellings are symbolic). -/
def demoParseJson : String → Option JsonVal := fun s =>
  if s = "Ecreated" then some (JsonVal.obj [("type", JsonVal.str "response.created")])
  else if s = "Edelta" then
    some (JsonVal.obj [("type", JsonVal.str "response.output_text.delta"),
                       ("delta", JsonVal.str "hi")])
  else if s = "EdeltaPascal" then
    some (JsonVal.obj [("type", JsonVal.str "ResponseTextDeltaEvent"),
                       ("delta", JsonVal.str "x")])
  else if s = "Ecompleted" then
    some (JsonVal.obj [("type", JsonVal.str "response.completed"),
                       ("response", JsonVal.obj [])])
  else none

/-- Demonstration external collaborators for the concrete witnesses. -/
def demoDecoders : Decoders Unit :=
  { parseJson := demoParseJson
    validateResponse := fun _ => some { output := [] }
    validateFields := fun _ _ => true }

/-- Demonstration caller-supplied schema validator
(`text_format.model_validate`) for the concrete witnesses. -/
def demoSchema : JsonVal → Option Unit := fun _ => some ()

theorem dictGet?_dictSet_self (d : JsonObj) (k : String) (v : JsonVal) :
    dictGet? (dictSet d k v) k = some v := by
  induction d with
  | nil => simp [dictGet?, dictSet]
  | cons p rest ih =>
    obtain ⟨k', v'⟩ := p
    by_cases h : k' = k <;> simp [dictGet?, dictSet, h, ih]

theorem dictGet?_dictSet_ne (d : JsonObj) (k k' : String) (v : JsonVal) (h : k' ≠ k) :
    dictGet? (dictSet d k v) k' = dictGet? d k' := by
  induction d with
  | nil =>
    simp only [dictSet, dictGet?]
    rw [if_neg (fun h' : k = k' => h h'.symm)]
  | cons p rest ih =>
    obtain ⟨k₀, v₀⟩ := p
    by_cases h0 : k₀ = k
    · subst h0
      simp only [dictSet, if_pos rfl, dictGet?]
      rw [if_neg (fun h1 : k₀ = k' => h h1.symm), if_neg (fun h1 : k₀ = k' => h h1.symm)]
    · simp only [dictSet, if_neg h0, dictGet?]
      by_cases h1 : k₀ = k' <;> simp [h1, ih]

theorem dictSet_dictSet_self (d : JsonObj) (k : String) (v v' : JsonVal) :
    dictSet (dictSet d k v) k v' = dictSet d k v' := by
  induction d with
  | nil => simp [dictSet]
  | cons p rest ih =>
    obtain ⟨k₀, v₀⟩ := p
    by_cases h : k₀ = k <;> simp [dictSet, h, ih]

theorem dictSet_eq_self_of_get (d : JsonObj) (k : String) (v : JsonVal)
    (h : dictGet? d k = some v) : dictSet d k v = d := by
  induction d with
  | nil => simp [dictGet?] at h
  | cons p rest ih =>
    obtain ⟨k₀, v₀⟩ := p
    by_cases h0 : k₀ = k
    · simp [dictGet?, h0] at h
      simp [dictSet, h0, h]
    · simp [dictGet?, h0] at h
      simp [dictSet, h0, ih h]

theorem dictSet_keys (d : JsonObj) (k : String) (v : JsonVal) :
    (dictSet d k v).map Prod.fst =
      if k ∈ d.map Prod.fst then d.map Prod.fst else d.map Prod.fst ++ [k] := by
  induction d with
  | nil => simp [dictSet]
  | cons p rest ih =>
    obtain ⟨k₀, v₀⟩ := p
    by_cases h0 : k₀ = k
    · simp [dictSet, h0]
    · have hne : ¬k = k₀ := fun h' => h0 h'.symm
      by_cases h1 : k ∈ rest.map Prod.fst <;>
        simp [dictSet, h0, h1, ih, hne]

theorem lookup_mem {l : List (String × String)} {s t : String}
    (h : l.lookup s = some t) : (s, t) ∈ l := by
  induction l with
  | nil => simp [List.lookup] at h
  | cons p rest ih =>
    obtain ⟨k, w⟩ := p
    by_cases h0 : s = k
    · subst h0
      simp [List.lookup] at h
      simp [h]
    · simp [List.lookup, beq_false_of_ne h0] at h
      exact List.mem_cons_of_mem _ (ih h)

/-- Every right-hand side of the table is absent from the key column: the
normalized (PascalCase) names are not vendor (dotted) names. -/
theorem typeMapping_values_not_keys :
    typeMapping.all (fun p => (typeMapping.lookup p.2).isNone) = true := by decide

theorem lookup_of_value {s t : String} (h : typeMapping.lookup s = some t) :
    typeMapping.lookup t = none := by
  have hmem := lookup_mem h
  have := List.all_eq_true.mp typeMapping_values_not_keys _ hmem
  simpa [Option.isNone_iff_eq_none] using this

theorem lookup_getD_fixpoint (s : String) :
    (typeMapping.lookup ((typeMapping.lookup s).getD s)).getD ((typeMapping.lookup s).getD s)
      = (typeMapping.lookup s).getD s := by
  cases h : typeMapping.lookup s with
  | none => simp [h]
  | some t => simp [lookup_of_value h]

theorem normalize_str_case (d : JsonObj) (s : String)
    (h : (dictGet? d "type").getD (JsonVal.str "") = JsonVal.str s) :
    normalizeEventType d
      = some (dictSet d "type" (JsonVal.str ((typeMapping.lookup s).getD s))) := by
  unfold normalizeEventType
  rw [h]

theorem normalize_null_case (d : JsonObj)
    (h : (dictGet? d "type").getD (JsonVal.str "") = JsonVal.null) :
    normalizeEventType d = some (dictSet d "type" JsonVal.null) := by
  unfold normalizeEventType
  rw [h]

theorem normalize_bool_case (d : JsonObj) (b : Bool)
    (h : (dictGet? d "type").getD (JsonVal.str "") = JsonVal.bool b) :
    normalizeEventType d = some (dictSet d "type" (JsonVal.bool b)) := by
  unfold normalizeEventType
  rw [h]

theorem normalize_num_case (d : JsonObj) (n : Int)
    (h : (dictGet? d "type").getD (JsonVal.str "") = JsonVal.num n) :
    normalizeEventType d = some (dictSet d "type" (JsonVal.num n)) := by
  unfold normalizeEventType
  rw [h]

theorem normalize_arr_case (d : JsonObj) (xs : List JsonVal)
    (h : (dictGet? d "type").getD (JsonVal.str "") = JsonVal.arr xs) :
    normalizeEventType d = none := by
  unfold normalizeEventType
  rw [h]

theorem normalize_obj_case (d : JsonObj) (fs : List (String × JsonVal))
    (h : (dictGet? d "type").getD (JsonVal.str "") = JsonVal.obj fs) :
    normalizeEventType d = none := by
  unfold normalizeEventType
  rw [h]

/-- Claim C7: type-name normalization is idempotent: running
`_normalize_event_type` on its own output returns that output unchanged,
because no right-hand side of the mapping table is itself a key of the
table, and values that miss the table pass through unchanged.  (A `TypeError`
exit, modelled by `none`, propagates identically on both sides.) -/
theorem c7_normalizeEventType_idempotent (d : JsonObj) :
    (normalizeEventType d).bind normalizeEventType = normalizeEventType d := by
  cases h : (dictGet? d "type").getD (JsonVal.str "") with
  | str s =>
    rw [normalize_str_case d s h, Option.some_bind,
      normalize_str_case _ ((typeMapping.lookup s).getD s)
        (by rw [dictGet?_dictSet_self]; rfl),
      lookup_getD_fixpoint, dictSet_dictSet_self]
  | arr xs => rw [normalize_arr_case d xs h]; rfl
  | obj fs => rw [normalize_obj_case d fs h]; rfl
  | null =>
    rw [normalize_null_case d h, Option.some_bind,
      normalize_null_case _ (by rw [dictGet?_dictSet_self]; rfl),
      dictSet_dictSet_self]
  | bool b =>
    rw [normalize_bool_case d b h, Option.some_bind,
      normalize_bool_case _ b (by rw [dictGet?_dictSet_self]; rfl),
      dictSet_dictSet_self]
  | num n =>
    rw [normalize_num_case d n h, Option.some_bind,
      normalize_num_case _ n (by rw [dictGet?_dictSet_self]; rfl),
      dictSet_dictSet_self]

/-- Claim C8: an event object whose `type` string is not a key of the
vendor mapping table is returned by `_normalize_event_type` completely
unchanged: the unknown type passes through instead of being dropped or
rejected. -/
theorem c8_unknown_type_passthrough (d : JsonObj) (s : String)
    (hty : dictGet? d "type" = some (JsonVal.str s))
    (hunk : typeMapping.lookup s = none) :
    normalizeEventType d = some d := by
  rw [normalize_str_case d s (by rw [hty]; rfl), hunk]
  rw [Option.getD_none, dictSet_eq_self_of_get d "type" _ hty]

/-- Witness for C8 at a concrete unknown (future) event type. -/
theorem c8_unknown_type_passthrough_witness :
    normalizeEventType [("type", JsonVal.str "response.future_event"), ("delta", JsonVal.str "x")]
      = some [("type", JsonVal.str "response.future_event"), ("delta", JsonVal.str "x")] :=
  c8_unknown_type_passthrough _ "response.future_event" rfl rfl

/-- Counterexample to claim C10 as stated: on an input dictionary without a
`type` key (for example the empty JSON object) `_normalize_event_type`
executes `event_data.get("type", "")` and then `event_data["type"] = ...`,
which ADDS a `type` key; so it is not true that "no keys are added" for
every input event dictionary. -/
theorem c10_counterexample_type_key_added :
    normalizeEventType ([] : JsonObj) = some [("type", JsonVal.str "")]
      ∧ dictGet? ([] : JsonObj) "type" = none :=
  ⟨rfl, rfl⟩

/-- Claim C10 (amended): when `_normalize_event_type` returns (no
`TypeError`), it modifies at most the `type` entry: every other key maps to
its input value, no key is removed, and the key list is unchanged except
that a `type` key is appended when the input had none.  (The in-place
object identity of the Python mutation is outside a functional model.) -/
theorem c10_normalize_frame (d d' : JsonObj)
    (h : normalizeEventType d = some d') :
    (∀ k, k ≠ "type" → dictGet? d' k = dictGet? d k)
      ∧ d'.map Prod.fst =
          (if "type" ∈ d.map Prod.fst then d.map Prod.fst
           else d.map Prod.fst ++ ["type"]) := by
  have hset : ∃ w, d' = dictSet d "type" w := by
    cases hv : (dictGet? d "type").getD (JsonVal.str "") with
    | str s =>
      rw [normalize_str_case d s hv] at h
      exact ⟨_, (Option.some_injective _ h).symm⟩
    | arr xs => rw [normalize_arr_case d xs hv] at h; cases h
    | obj fs => rw [normalize_obj_case d fs hv] at h; cases h
    | null =>
      rw [normalize_null_case d hv] at h
      exact ⟨_, (Option.some_injective _ h).symm⟩
    | bool b =>
      rw [normalize_bool_case d b hv] at h
      exact ⟨_, (Option.some_injective _ h).symm⟩
    | num n =>
      rw [normalize_num_case d n hv] at h
      exact ⟨_, (Option.some_injective _ h).symm⟩
  obtain ⟨w, rfl⟩ := hset
  exact ⟨fun k hk => dictGet?_dictSet_ne d "type" k w hk, dictSet_keys d "type" w⟩

/-- Witness for the amended C10 at a concrete mapped event object. -/
theorem c10_normalize_frame_witness :
    dictGet? [("type", JsonVal.str "ResponseCreatedEvent"), ("a", JsonVal.num 1)] "a"
      = dictGet? [("type", JsonVal.str "response.created"), ("a", JsonVal.num 1)] "a" :=
  (c10_normalize_frame [("type", JsonVal.str "response.created"), ("a", JsonVal.num 1)]
    [("type", JsonVal.str "ResponseCreatedEvent"), ("a", JsonVal.num 1)] rfl).1 "a"
    (by decide)

theorem isTypeStr_true_iff (v : Option JsonVal) (t : String) :
    isTypeStr v t = true ↔ v = some (JsonVal.str t) := by
  cases v with
  | none => simp [isTypeStr]
  | some w => cases w <;> simp [isTypeStr]

theorem lookup_output_text_delta :
    typeMapping.lookup "response.output_text.delta" = some "ResponseTextDeltaEvent" := by
  decide

theorem validateEvent_textDelta_shape {P : Type} (D : Decoders P) (d : JsonObj)
    (ev : StreamEvent P)
    (hty : dictGet? d "type" = some (JsonVal.str "ResponseTextDeltaEvent"))
    (hv : validateEvent D d = some ev) :
    ∃ s, dictGet? d "delta" = some (JsonVal.str s) ∧ ev = StreamEvent.textDelta s := by
  cases hd : dictGet? d "delta" with
  | none => simp [validateEvent, hty, hd] at hv
  | some w =>
    cases w with
    | str s =>
      cases hf : D.validateFields "ResponseTextDeltaEvent" d with
      | false => simp [validateEvent, hty, hd, hf] at hv
      | true =>
        simp [validateEvent, hty, hd, hf] at hv
        exact ⟨s, rfl, hv.symm⟩
    | null => simp [validateEvent, hty, hd] at hv
    | bool b => simp [validateEvent, hty, hd] at hv
    | num n => simp [validateEvent, hty, hd] at hv
    | arr xs => simp [validateEvent, hty, hd] at hv
    | obj fs => simp [validateEvent, hty, hd] at hv

theorem processDataStr_step {P : Type} (D : Decoders P) (tf : Option (JsonVal → Option P))
    (st : StreamState P) (ds : String) (hst : st.done = false) :
    (processDataStr D tf st ds).done = false
    ∧ (processDataStr D tf st ds).events.map StreamEvent.type
        = st.events.map StreamEvent.type ++ (dataEventType? D ds).toList
    ∧ (processDataStr D tf st ds).accumulated_text
        = st.accumulated_text ++ ((dataDelta? D ds).getD "")
    ∧ (processDataStr D tf st ds).parseAttempts
        ≤ st.parseAttempts + (if dataCompleted D tf ds then 1 else 0) := by
  cases hp : D.parseJson ds with
  | none => simp [processDataStr, dataEventType?, dataDelta?, dataCompleted, hp, hst]
  | some j =>
    cases j with
    | obj ed =>
      cases hn : normalizeEventType ed with
      | none => simp [processDataStr, dataEventType?, dataDelta?, dataCompleted, hp, hn, hst]
      | some d' =>
        cases hv : validateEvent D d' with
        | none => simp [processDataStr, dataEventType?, dataDelta?, dataCompleted, hp, hn, hv, hst]
        | some ev =>
          by_cases hdelta : isTypeStr (dictGet? ed "type") "response.output_text.delta" = true
          · have hty : dictGet? ed "type" = some (JsonVal.str "response.output_text.delta") :=
              (isTypeStr_true_iff _ _).mp hdelta
            have hd' : d' = dictSet ed "type" (JsonVal.str "ResponseTextDeltaEvent") := by
              have hcase := normalize_str_case ed "response.output_text.delta" (by rw [hty]; rfl)
              rw [lookup_output_text_delta, Option.getD_some, hn] at hcase
              exact Option.some_injective _ hcase
            have htyd : dictGet? d' "type" = some (JsonVal.str "ResponseTextDeltaEvent") := by
              rw [hd', dictGet?_dictSet_self]
            obtain ⟨s, hds, hevs⟩ := validateEvent_textDelta_shape D d' ev htyd hv
            subst hevs
            simp [processDataStr, dataEventType?, dataDelta?, dataCompleted, hp, hn, hv,
              hdelta, hds, yieldEvent, hst, StreamEvent.type]
          · cases ev with
            | textDelta s =>
              simp [processDataStr, dataEventType?, dataDelta?, dataCompleted, hp, hn, hv,
                hdelta, yieldEvent, hst, StreamEvent.type]
            | other t =>
              simp [processDataStr, dataEventType?, dataDelta?, dataCompleted, hp, hn, hv,
                hdelta, yieldEvent, hst, StreamEvent.type]
            | completed r =>
              cases tf with
              | none =>
                simp [processDataStr, dataEventType?, dataDelta?, dataCompleted, hp, hn, hv,
                  hdelta, yieldEvent, hst, StreamEvent.type]
              | some f =>
                by_cases hc : isTypeStr (dictGet? ed "type") "response.completed" = true
                · by_cases hacc : st.accumulated_text = ""
                  · simp [processDataStr, dataEventType?, dataDelta?, dataCompleted, hp, hn, hv,
                      hdelta, hc, hacc, yieldEvent, hst, StreamEvent.type]
                  · simp [processDataStr, dataEventType?, dataDelta?, dataCompleted, hp, hn, hv,
                      hdelta, hc, hacc, yieldEvent, hst, StreamEvent.type]
                · simp [processDataStr, dataEventType?, dataDelta?, dataCompleted, hp, hn, hv,
                    hdelta, hc, yieldEvent, hst, StreamEvent.type]
    | null => simp [processDataStr, dataEventType?, dataDelta?, dataCompleted, hp, hst]
    | bool b => simp [processDataStr, dataEventType?, dataDelta?, dataCompleted, hp, hst]
    | num n => simp [processDataStr, dataEventType?, dataDelta?, dataCompleted, hp, hst]
    | str s => simp [processDataStr, dataEventType?, dataDelta?, dataCompleted, hp, hst]
    | arr xs => simp [processDataStr, dataEventType?, dataDelta?, dataCompleted, hp, hst]

theorem processLine_of_done {P : Type} (D : Decoders P) (tf : Option (JsonVal → Option P))
    (st : StreamState P) (line : String) (h : st.done = true) :
    processLine D tf st line = st := by
  simp [processLine, h]

theorem foldl_of_done {P : Type} (D : Decoders P) (tf : Option (JsonVal → Option P))
    (lines : List String) (st : StreamState P) (h : st.done = true) :
    lines.foldl (processLine D tf) st = st := by
  induction lines with
  | nil => rfl
  | cons l ls ih => rw [List.foldl_cons, processLine_of_done D tf st l h, ih]

theorem processLine_doneLine {P : Type} (D : Decoders P) (tf : Option (JsonVal → Option P))
    (st : StreamState P) (line : String) (hst : st.done = false)
    (hdl : isDoneLine line = true) :
    processLine D tf st line = { st with done := true } := by
  unfold isDoneLine at hdl
  by_cases h1 : pyStrip line = ""
  · rw [if_pos h1] at hdl; cases hdl
  · rw [if_neg h1] at hdl
    by_cases h2 : pyStartsWith (pyStrip line) "event: " = true
    · rw [if_pos h2] at hdl; cases hdl
    · rw [if_neg h2] at hdl
      by_cases h3 : pyStartsWith (pyStrip line) "data: " = true
      · rw [if_pos h3] at hdl
        have h4 : pyDrop (pyStrip line) 6 = "[DONE]" := of_decide_eq_true hdl
        simp [processLine, hst, h1, h2, h3, h4]
      · rw [if_neg h3] at hdl; cases hdl

theorem processLine_step {P : Type} (D : Decoders P) (tf : Option (JsonVal → Option P))
    (st : StreamState P) (line : String) (hst : st.done = false)
    (hdl : isDoneLine line = false) :
    (processLine D tf st line).done = false
    ∧ (processLine D tf st line).events.map StreamEvent.type
        = st.events.map StreamEvent.type ++ (lineEventType? D line).toList
    ∧ (processLine D tf st line).accumulated_text
        = st.accumulated_text ++ ((lineDelta? D line).getD "")
    ∧ (processLine D tf st line).parseAttempts
        ≤ st.parseAttempts + (if lineCompleted D tf line then 1 else 0) := by
  by_cases h1 : pyStrip line = ""
  · simp [processLine, lineEventType?, lineDelta?, lineCompleted, hst, h1]
  · by_cases h2 : pyStartsWith (pyStrip line) "event: " = true
    · simp [processLine, lineEventType?, lineDelta?, lineCompleted, hst, h1, h2]
    · by_cases h3 : pyStartsWith (pyStrip line) "data: " = true
      · have h4 : ¬(pyDrop (pyStrip line) 6 = "[DONE]") := by
          simp [isDoneLine, h1, h2, h3] at hdl
          exact hdl
        have hP : processLine D tf st line = processDataStr D tf st (pyDrop (pyStrip line) 6) := by
          simp [processLine, hst, h1, h2, h3, h4]
        have hE : lineEventType? D line = dataEventType? D (pyDrop (pyStrip line) 6) := by
          simp [lineEventType?, h1, h2, h3, h4]
        have hD : lineDelta? D line = dataDelta? D (pyDrop (pyStrip line) 6) := by
          simp [lineDelta?, h1, h2, h3, h4]
        have hC : lineCompleted D tf line = dataCompleted D tf (pyDrop (pyStrip line) 6) := by
          simp [lineCompleted, h1, h2, h3, h4]
        rw [hP, hE, hD, hC]
        exact processDataStr_step D tf st (pyDrop (pyStrip line) 6) hst
      · simp [processLine, lineEventType?, lineDelta?, lineCompleted, hst, h1, h2, h3]

theorem strAppend_assoc (a b c : String) : a ++ b ++ c = a ++ (b ++ c) := by
  apply String.ext
  simp

theorem foldl_stream_spec {P : Type} (D : Decoders P) (tf : Option (JsonVal → Option P))
    (lines : List String) :
    ∀ st : StreamState P, st.done = false →
      ((lines.foldl (processLine D tf) st).events.map StreamEvent.type
        = st.events.map StreamEvent.type
          ++ ((lines.takeWhile fun l => !isDoneLine l).filterMap (lineEventType? D)))
      ∧ ((lines.foldl (processLine D tf) st).accumulated_text
        = st.accumulated_text
          ++ strConcat ((lines.takeWhile fun l => !isDoneLine l).filterMap (lineDelta? D)))
      ∧ ((lines.foldl (processLine D tf) st).parseAttempts
        ≤ st.parseAttempts
          + ((lines.takeWhile fun l => !isDoneLine l).countP (lineCompleted D tf))) := by
  induction lines with
  | nil => intro st hst; simp [strConcat]
  | cons l ls ih =>
    intro st hst
    by_cases hdl : isDoneLine l = true
    · rw [List.foldl_cons, processLine_doneLine D tf st l hst hdl,
        foldl_of_done D tf ls _ rfl]
      simp [List.takeWhile_cons, hdl, strConcat]
    · have hdlf : isDoneLine l = false := by
        cases h : isDoneLine l
        · rfl
        · exact absurd h hdl
      obtain ⟨hd1, he, ha, hp⟩ := processLine_step D tf st l hst hdlf
      rw [List.foldl_cons]
      obtain ⟨ihe, iha, ihp⟩ := ih (processLine D tf st l) hd1
      refine ⟨?_, ?_, ?_⟩
      · rw [ihe, he, List.takeWhile_cons]
        cases h : lineEventType? D l <;> simp [hdlf, h]
      · rw [iha, ha, List.takeWhile_cons]
        cases h : lineDelta? D l <;> simp [hdlf, h, strConcat, strAppend_assoc]
      · have hcount : ((l :: ls).takeWhile fun x => !isDoneLine x).countP (lineCompleted D tf)
            = (if lineCompleted D tf l then 1 else 0)
              + (ls.takeWhile fun x => !isDoneLine x).countP (lineCompleted D tf) := by
          rw [List.takeWhile_cons]
          simp only [hdlf, Bool.not_false, if_true, List.countP_cons]
          cases h : lineCompleted D tf l <;> simp [h]
          all_goals omega
        rw [hcount]
        calc (ls.foldl (processLine D tf) (processLine D tf st l)).parseAttempts
            ≤ (processLine D tf st l).parseAttempts
              + (ls.takeWhile fun x => !isDoneLine x).countP (lineCompleted D tf) := ihp
          _ ≤ st.parseAttempts + (if lineCompleted D tf l then 1 else 0)
              + (ls.takeWhile fun x => !isDoneLine x).countP (lineCompleted D tf) := by
                omega
          _ = st.parseAttempts + ((if lineCompleted D tf l then 1 else 0)
              + (ls.takeWhile fun x => !isDoneLine x).countP (lineCompleted D tf)) := by
                omega

theorem isDoneLine_done : isDoneLine "data: [DONE]" = true := by decide

theorem takeWhile_eq_self_of_forall (lines : List String)
    (h : ∀ l ∈ lines, isDoneLine l = false) :
    (lines.takeWhile fun l => !isDoneLine l) = lines := by
  induction lines with
  | nil => rfl
  | cons a rest ih =>
    rw [List.takeWhile_cons]
    simp [h a (List.mem_cons_self a rest),
      ih fun l hl => h l (List.mem_cons_of_mem _ hl)]

theorem takeWhile_append_done (body : List String)
    (h : ∀ l ∈ body, isDoneLine l = false) :
    ((body ++ ["data: [DONE]"]).takeWhile fun l => !isDoneLine l) = body := by
  induction body with
  | nil => simp [List.takeWhile_cons, isDoneLine_done]
  | cons b rest ih =>
    rw [List.cons_append, List.takeWhile_cons]
    simp [h b (List.mem_cons_self b rest),
      ih fun l hl => h l (List.mem_cons_of_mem _ hl)]

/-- Claim C1: for every finite line sequence that is a valid SSE stream
terminated by a `data: [DONE]` line, the `type` values of the yielded
events equal, in arrival order, the normalized type names of the valid,
parseable `data:` lines; malformed lines are skipped and nothing is
reordered. -/
theorem c1_event_types_in_order {P : Type} (D : Decoders P)
    (tf : Option (JsonVal → Option P)) (body : List String)
    (hbody : ∀ l ∈ body, isDoneLine l = false) :
    (streamEvents D tf (body ++ ["data: [DONE]"])).events.map StreamEvent.type
      = body.filterMap (lineEventType? D) := by
  have h := (foldl_stream_spec D tf (body ++ ["data: [DONE]"]) (startState P) rfl).1
  rw [streamEvents, h, takeWhile_append_done body hbody]
  simp [startState]

/-- Witness for C1 on a concrete two-event stream. -/
theorem c1_event_types_in_order_witness :
    (streamEvents demoDecoders none
        (["data: Ecreated", "data: Edelta"] ++ ["data: [DONE]"])).events.map StreamEvent.type
      = ["ResponseCreatedEvent", "ResponseTextDeltaEvent"] :=
  (c1_event_types_in_order demoDecoders none ["data: Ecreated", "data: Edelta"]
    (by decide)).trans (by decide)

theorem isDoneLine_eq_false_of_lineEventType? {P : Type} (D : Decoders P)
    (l : String) (t : String) (h : lineEventType? D l = some t) :
    isDoneLine l = false := by
  by_cases h1 : pyStrip l = ""
  · simp [lineEventType?, h1] at h
  · by_cases h2 : pyStartsWith (pyStrip l) "event: " = true
    · simp [lineEventType?, h1, h2] at h
    · by_cases h3 : pyStartsWith (pyStrip l) "data: " = true
      · by_cases h4 : pyDrop (pyStrip l) 6 = "[DONE]"
        · simp [lineEventType?, h1, h2, h3, h4] at h
        · simp [isDoneLine, h1, h2, h3, h4]
      · simp [isDoneLine, h1, h2, h3]

/-- Claim C3: a `data:` line whose payload does not parse as JSON is
skipped and processing continues: one malformed JSON line between two
valid lines yields exactly the two valid events, in order, and no
payload-level error ends the stream (the step function is total). -/
theorem c3_malformed_line_skipped {P : Type} (D : Decoders P)
    (tf : Option (JsonVal → Option P)) (l1 bad l2 t1 t2 : String)
    (h1 : lineEventType? D l1 = some t1)
    (h2 : lineEventType? D l2 = some t2)
    (hbadN : ¬(pyStrip bad = ""))
    (hbadE : ¬(pyStartsWith (pyStrip bad) "event: " = true))
    (hbadD : pyStartsWith (pyStrip bad) "data: " = true)
    (hbadS : ¬(pyDrop (pyStrip bad) 6 = "[DONE]"))
    (hbadP : D.parseJson (pyDrop (pyStrip bad) 6) = none) :
    (streamEvents D tf [l1, bad, l2]).events.map StreamEvent.type = [t1, t2] := by
  have hbadT : lineEventType? D bad = none := by
    simp [lineEventType?, hbadN, hbadE, hbadD, hbadS, dataEventType?, hbadP]
  have hbadDone : isDoneLine bad = false := by
    simp [isDoneLine, hbadN, hbadE, hbadD, hbadS]
  have h1Done := isDoneLine_eq_false_of_lineEventType? D l1 t1 h1
  have h2Done := isDoneLine_eq_false_of_lineEventType? D l2 t2 h2
  have hspec := (foldl_stream_spec D tf [l1, bad, l2] (startState P) rfl).1
  rw [streamEvents, hspec]
  have htw : ([l1, bad, l2].takeWhile fun l => !isDoneLine l) = [l1, bad, l2] :=
    takeWhile_eq_self_of_forall _ (by
      intro l hl
      simp only [List.mem_cons, List.not_mem_nil, or_false] at hl
      rcases hl with rfl | rfl | rfl
      · exact h1Done
      · exact hbadDone
      · exact h2Done)
  rw [htw]
  simp [List.filterMap_cons, h1, hbadT, h2, startState]

/-- Witness for C3 on a concrete malformed-in-the-middle stream. -/
theorem c3_malformed_line_skipped_witness :
    (streamEvents demoDecoders none
        ["data: Ecreated", "data: garbage", "data: Edelta"]).events.map StreamEvent.type
      = ["ResponseCreatedEvent", "ResponseTextDeltaEvent"] :=
  c3_malformed_line_skipped demoDecoders none
    "data: Ecreated" "data: garbage" "data: Edelta"
    "ResponseCreatedEvent" "ResponseTextDeltaEvent"
    rfl rfl (by decide) (by decide) (by decide) (by decide) rfl

/-- Claim C2: when a terminal completed event is decoded, a schema was
supplied and the accumulated text is non-empty, then: if the accumulated
text parses as JSON and validates against the schema, the parsed object is
attached (via `injectParsed`) to every `output_text` content of every
`message` item of the embedded response before the event is yielded; if
parsing or validation fails, the response is yielded unchanged (`parsed`
left as decoded, i.e. unset) — no exception reaches the consumer and the
completed event is still yielded. -/
theorem c2_structured_output_best_effort {P : Type} (D : Decoders P)
    (f : JsonVal → Option P) (st : StreamState P) (ds : String)
    (ed d' : JsonObj) (r : ResponseObj P)
    (hparse : D.parseJson ds = some (JsonVal.obj ed))
    (htype : dictGet? ed "type" = some (JsonVal.str "response.completed"))
    (hnorm : normalizeEventType ed = some d')
    (hval : validateEvent D d' = some (StreamEvent.completed r))
    (hacc : ¬(st.accumulated_text = "")) :
    (∀ pd p, D.parseJson st.accumulated_text = some pd → f pd = some p →
        (processDataStr D (some f) st ds).events
          = st.events ++ [StreamEvent.completed (injectParsed p r)])
    ∧ (D.parseJson st.accumulated_text = none →
        (processDataStr D (some f) st ds).events
          = st.events ++ [StreamEvent.completed r])
    ∧ (∀ pd, D.parseJson st.accumulated_text = some pd → f pd = none →
        (processDataStr D (some f) st ds).events
          = st.events ++ [StreamEvent.completed r]) := by
  have hdelta : isTypeStr (dictGet? ed "type") "response.output_text.delta" = false := by
    rw [htype]; rfl
  have hc : isTypeStr (dictGet? ed "type") "response.completed" = true := by
    rw [htype]; rfl
  refine ⟨?_, ?_, ?_⟩
  · intro pd p hpd hfp
    simp [processDataStr, hparse, hnorm, hval, hdelta, yieldEvent, hc, hacc,
      attachStructuredOutput, hpd, hfp]
  · intro hpd
    simp [processDataStr, hparse, hnorm, hval, hdelta, yieldEvent, hc, hacc,
      attachStructuredOutput, hpd]
  · intro pd hpd hfp
    simp [processDataStr, hparse, hnorm, hval, hdelta, yieldEvent, hc, hacc,
      attachStructuredOutput, hpd, hfp]

/-- Witness for C2 on the spec's own example: accumulated text `"notjson"`
does not parse, yet the completed event is still yielded with its response
unchanged. -/
theorem c2_structured_output_best_effort_witness :
    (processDataStr demoDecoders (some demoSchema)
        { accumulated_text := "notjson", events := [], parseAttempts := 0, done := false }
        "Ecompleted").events
      = [StreamEvent.completed { output := [] }] :=
  ((c2_structured_output_best_effort demoDecoders demoSchema
      { accumulated_text := "notjson", events := [], parseAttempts := 0, done := false }
      "Ecompleted"
      [("type", JsonVal.str "response.completed"), ("response", JsonVal.obj [])]
      [("type", JsonVal.str "ResponseCompletedEvent"), ("response", JsonVal.obj [])]
      { output := [] }
      rfl rfl rfl rfl (by decide)).2.1 rfl).trans (List.nil_append _)

/-- Counterexample to claim C4 as stated: a payload arriving with the
already-normalized type `ResponseTextDeltaEvent` decodes to the text-delta
variant of the union (its normalized type is the text-delta variant), yet
its `delta` is NOT appended to the buffer, because the accumulation guard
in `_stream_events` compares the ORIGINAL, pre-normalization type string
with `response.output_text.delta`. -/
theorem c4_counterexample_prenormalized_delta :
    (streamEvents demoDecoders none ["data: EdeltaPascal"]).events
        = [StreamEvent.textDelta "x"]
      ∧ (streamEvents demoDecoders none ["data: EdeltaPascal"]).accumulated_text = "" :=
  ⟨rfl, rfl⟩

/-- Claim C4 (amended): the buffer mutates only on decoded events whose
original (pre-normalization) type string is `response.output_text.delta`;
after processing any line prefix, the buffer equals the concatenation, in
arrival order, of the `delta` strings of exactly those events
(`lineDelta?`).  An event arriving pre-normalized decodes to the
text-delta variant but is not accumulated. -/
theorem c4_accumulator_concat {P : Type} (D : Decoders P)
    (tf : Option (JsonVal → Option P)) (lines : List String) :
    (streamEvents D tf lines).accumulated_text
      = strConcat ((lines.takeWhile fun l => !isDoneLine l).filterMap (lineDelta? D)) := by
  have h := (foldl_stream_spec D tf lines (startState P) rfl).2.1
  rw [streamEvents, h]
  have : (startState P).accumulated_text = "" := rfl
  rw [this]
  apply String.ext
  simp

/-- Counterexample to claim C5 as stated: in one stream in which two
completed events are decoded (schema supplied, non-empty buffer), the
terminal parse of the accumulated text is attempted twice — the code keeps
no once-per-stream flag and never clears the accumulator — contradicting
"at most once per stream". -/
theorem c5_counterexample_two_completed :
    (streamEvents demoDecoders (some demoSchema)
        ["data: Edelta", "data: Ecompleted", "data: Ecompleted"]).parseAttempts = 2 := rfl

/-- Claim C5 (amended): the terminal structured-output parse is attempted
at most once per decoded completed event — bounded by the number of lines
that decode to a completed event with a schema supplied — rather than at
most once per stream. -/
theorem c5_parse_attempts_le_completed {P : Type} (D : Decoders P)
    (tf : Option (JsonVal → Option P)) (lines : List String) :
    (streamEvents D tf lines).parseAttempts ≤ lines.countP (lineCompleted D tf) := by
  have h := (foldl_stream_spec D tf lines (startState P) rfl).2.2
  rw [streamEvents]
  calc (lines.foldl (processLine D tf) (startState P)).parseAttempts
      ≤ (startState P).parseAttempts
          + (lines.takeWhile fun l => !isDoneLine l).countP (lineCompleted D tf) := h
    _ = (lines.takeWhile fun l => !isDoneLine l).countP (lineCompleted D tf) := by
          simp [startState]
    _ ≤ lines.countP (lineCompleted D tf) :=
          (List.takeWhile_sublist _).countP_le _

/-- Claim C6: a `data: [DONE]` line ends the event sequence as a success —
lines after it contribute no events — and a stream that simply ends
without `[DONE]` (and without any completed event) also terminates,
yielding every event parsed up to that point; the step function is total,
so no exception can escape to the consumer in either case. -/
theorem c6_done_or_eof_terminates {P : Type} (D : Decoders P)
    (tf : Option (JsonVal → Option P)) :
    (∀ pre post : List String,
        (streamEvents D tf (pre ++ "data: [DONE]" :: post)).events
          = (streamEvents D tf pre).events)
    ∧ (∀ lines : List String, (∀ l ∈ lines, isDoneLine l = false) →
        (streamEvents D tf lines).events.map StreamEvent.type
          = lines.filterMap (lineEventType? D)) := by
  constructor
  · intro pre post
    rw [streamEvents, streamEvents, List.foldl_append, List.foldl_cons]
    cases hdone : (pre.foldl (processLine D tf) (startState P)).done
    · rw [processLine_doneLine D tf _ _ hdone isDoneLine_done,
        foldl_of_done D tf post _ rfl]
    · rw [processLine_of_done D tf _ _ hdone, foldl_of_done D tf post _ hdone]
  · intro lines hnd
    have h := (foldl_stream_spec D tf lines (startState P) rfl).1
    rw [streamEvents, h, takeWhile_eq_self_of_forall lines hnd]
    simp [startState]

/-- Witness for C6: the terminator cuts off a trailing valid line, and an
unterminated two-line stream yields both its events. -/
theorem c6_done_or_eof_terminates_witness :
    (streamEvents demoDecoders none
        (["data: Ecreated"] ++ "data: [DONE]" :: ["data: Edelta"])).events
      = (streamEvents demoDecoders none ["data: Ecreated"]).events
    ∧ (streamEvents demoDecoders none
        ["data: Ecreated", "data: Edelta"]).events.map StreamEvent.type
      = ["ResponseCreatedEvent", "ResponseTextDeltaEvent"] :=
  ⟨(c6_done_or_eof_terminates demoDecoders none).1 ["data: Ecreated"] ["data: Edelta"],
   ((c6_done_or_eof_terminates demoDecoders none).2
      ["data: Ecreated", "data: Edelta"] (by decide)).trans (by decide)⟩
